import Mathlib

/-!
# E-commerce backend: request handlers over an explicit document store

A shallow embedding of `src/server.js` together with the schemas in
`src/models/cart.js` and `src/models/item.js`.  Every Express handler becomes a
pure function from the store before the request to the response and the store
after it.  The handlers run one at a time (no interleaving is modelled).

Conventions of the embedding

* `ObjectId` is the 12-byte identifier of the document store, kept as its 24
  lower-case hexadecimal digits: `toHexString` is what the JavaScript
  `toString()` returns for it, `castObjectId` is the conversion applied to a
  string that is used where the schema expects an identifier (24 hexadecimal
  digits in either case are accepted, anything else is a cast error).
* Fields that the store library generates and that no handler reads
  (`createdAt`, `updatedAt`, `__v`, the `_id` of a cart and of its embedded
  lines) are not part of the records.
* The JavaScript `Number` type of `price` is only ever copied by the handlers,
  never computed with; it is kept as an integer.
* Request values are typed: `name`, `email` and the route parameters are
  strings; `password` and the body field `productId` are an `Option String`,
  where `none` stands for a value that is missing (for `password`: missing or
  not a string, which the hashing library rejects).  Other JSON values of
  `productId` are outside the embedding.
* Modelled from the spec: the auth middleware (`src/middleware/auth.js` is not
  among the sources) has verified the token before a protected handler runs and
  has attached the identifier of the caller, which the handler receives as its
  `userId` argument.
-/

deriving instance DecidableEq for Except

namespace Ecom

/-! ## Identifiers -/

/-- Lower-case hexadecimal digit: `0`-`9` or `a`-`f`. -/
def isLowerHexDigit (c : Char) : Bool :=
  (48 ≤ c.toNat && c.toNat ≤ 57) || (97 ≤ c.toNat && c.toNat ≤ 102)

/-- Maps `A`-`F` to `a`-`f` and leaves every other character alone. -/
def lowerHex (c : Char) : Char :=
  if 65 ≤ c.toNat ∧ c.toNat ≤ 70 then Char.ofNat (c.toNat + 32) else c

/-- Canonical text of an identifier: exactly 24 lower-case hexadecimal digits. -/
def isCanonicalHex (cs : List Char) : Bool :=
  cs.length == 24 && cs.all isLowerHexDigit

/-- Identifier of a stored document (`mongoose.Schema.Types.ObjectId`). -/
structure ObjectId where
  digits : List Char
  canonical : isCanonicalHex digits = true
  deriving DecidableEq

/-- Result of `toString()` on an identifier: its lower-case hexadecimal text. -/
def ObjectId.toHexString (x : ObjectId) : String := String.mk x.digits

/-- Failures raised by the store and hashing libraries; the `catch` of a handler
turns each of them into a 500 (or 400) response that echoes the message. -/
inductive StoreError where
  | castError
  | validationError
  | illegalArguments
  deriving DecidableEq, Repr

/-- Conversion of a request string to an identifier, as performed by the store
library when the string is used in a query on an identifier field: 24
hexadecimal digits are accepted in upper or lower case and denote the same
identifier, any other string is a cast error. -/
def castObjectId (s : String) : Except StoreError ObjectId :=
  if h : isCanonicalHex (s.data.map lowerHex) = true then
    .ok ⟨s.data.map lowerHex, h⟩
  else
    .error .castError

/-! ## Documents and the store -/

/-- Modelled from the spec: the user schema (`src/models/user.js` is not among
the sources).  A user has an identifier, a name, an email that is matched
exactly and case-sensitively, and the stored password hash. -/
structure User where
  _id : ObjectId
  name : String
  email : String
  password : String
  deriving DecidableEq

/-- Catalogue entry, `itemSchema` of `src/models/item.js`. -/
structure Item where
  _id : ObjectId
  title : String
  des : String
  price : Int
  image : String
  deriving DecidableEq

/-- Embedded cart line, `cartItemSchema` of `src/models/cart.js`. -/
structure CartLine where
  product : ObjectId
  name : String
  image : String
  price : Int
  deriving DecidableEq

/-- Cart document, `cartSchema` of `src/models/cart.js`. -/
structure Cart where
  user : ObjectId
  items : List CartLine
  deriving DecidableEq

/-- Contents of the three collections. -/
structure Store where
  users : List User
  items : List Item
  carts : List Cart
  deriving DecidableEq

/-- External functions the handlers call: `bcrypt.hash(password, 10)`,
`bcrypt.compare(password, hash)` and `jwt.sign` over the claims `id`, `email`
(the secret and the salt are part of the environment). -/
structure Env where
  hash : String → String
  compare : String → String → Bool
  sign : ObjectId → String → String

/-- JSON bodies the handlers send. -/
inductive Body where
  | message (m : String)
  | error (e : StoreError)
  | auth (token : String) (user : User)
  | item (i : Option Item)
  | cart (c : Cart)
  | emptyItems
  deriving DecidableEq

/-- Status code and body of a response. -/
structure Response where
  status : Nat
  body : Body
  deriving DecidableEq

/-- The `items` array of a response body, when the body has one: the lines of a
cart document, or the empty array of the literal `{ items: [] }`. -/
def Body.items : Body → Option (List CartLine)
  | .cart c => some c.items
  | .emptyItems => some []
  | _ => none

/-! ## Store operations -/

/-- Query `User.findOne({ email })`: first user whose email is exactly `email`. -/
def User.findOne (s : Store) (email : String) : Option User :=
  s.users.find? (fun u => decide (u.email = email))

/-- Modelled from the spec: `User.create` stores the new user record (the user
schema is not among the sources, so no validation rule is known for it). -/
def User.create (s : Store) (user : User) : Store :=
  { s with users := s.users ++ [user] }

/-- Lookup of an item by an identifier already cast. -/
def Item.byId (s : Store) (x : ObjectId) : Option Item :=
  s.items.find? (fun i => decide (i._id = x))

/-- Query `Item.findById(id)` on a request value: a missing value finds
nothing, a string is cast to an identifier first and a failed cast is thrown. -/
def Item.findById (s : Store) (id : Option String) : Except StoreError (Option Item) :=
  match id with
  | none => .ok none
  | some str =>
    match castObjectId str with
    | .error e => .error e
    | .ok x => .ok (Item.byId s x)

/-- Query `Cart.findOne({ user })`: first cart whose user reference is `user`. -/
def Cart.findOne (s : Store) (user : ObjectId) : Option Cart :=
  s.carts.find? (fun c => decide (c.user = user))

/-- Required-field check of `cartItemSchema` on one line: `name` and `image`
are required strings, which an empty string does not satisfy (`product` and
`price` are always present in a `CartLine`). -/
def validLine (l : CartLine) : Bool :=
  l.name != "" && l.image != ""

/-- Writes a cart document over the first row of the same user, or appends it
when that user has no row yet. -/
def putCart : List Cart → Cart → List Cart
  | [], c => [c]
  | d :: ds, c => if d.user = c.user then c :: ds else d :: putCart ds c

/-- Call `cart.save()`: the document is validated against the schema and then
written; a validation failure is thrown and nothing is written. -/
def Cart.save (s : Store) (cart : Cart) : Except StoreError Store :=
  if cart.items.all validLine then
    .ok { s with carts := putCart s.carts cart }
  else
    .error .validationError

/-- Query `Cart.findOneAndDelete({ user })`: removes the first cart of `user`,
if there is one. -/
def Cart.findOneAndDelete (s : Store) (user : ObjectId) : Store :=
  { s with carts := s.carts.eraseP (fun c => decide (c.user = user)) }

/-- Characters removed by the `trim: true` setter of the item schema. -/
def isTrimmed (c : Char) : Bool :=
  let n := c.toNat
  n == 9 || n == 10 || n == 11 || n == 12 || n == 13 || n == 32 || n == 160 ||
  n == 5760 || (8192 ≤ n && n ≤ 8202) || n == 8232 || n == 8233 || n == 8239 ||
  n == 8287 || n == 12288 || n == 65279

/-- The `trim` setter: drops leading and trailing white space. -/
def trim (t : String) : String :=
  String.mk ((t.data.dropWhile isTrimmed).reverse.dropWhile isTrimmed).reverse

/-- Replaces the four business fields of the first item whose identifier is `x`. -/
def setItem (x : ObjectId) (title des : String) (price : Int) (image : String) :
    List Item → List Item
  | [] => []
  | i :: is =>
    if i._id = x then
      { i with title := trim title, des := trim des, price := price, image := image } :: is
    else
      i :: setItem x title des price image is

/-! ## Handlers of `src/server.js` -/

/-- Handler of `POST /api/register` (lines 35-54); `newId` is the identifier the
store assigns to the created user. -/
def register (env : Env) (s : Store) (name email : String) (password : Option String)
    (newId : ObjectId) : Response × Store :=
  match User.findOne s email with
  | some _ => (⟨400, .message "User already exists"⟩, s)
  | none =>
    match password with
    | none => (⟨500, .error .illegalArguments⟩, s)
    | some pw =>
      let user : User := ⟨newId, name, email, env.hash pw⟩
      (⟨201, .auth (env.sign user._id user.email) user⟩, User.create s user)

/-- Handler of `POST /api/login` (lines 57-75). -/
def login (env : Env) (s : Store) (email : String) (password : Option String) :
    Response × Store :=
  match User.findOne s email with
  | none => (⟨400, .message "Invalid credentials"⟩, s)
  | some user =>
    match password with
    | none => (⟨500, .error .illegalArguments⟩, s)
    | some pw =>
      if env.compare pw user.password then
        (⟨200, .auth (env.sign user._id user.email) user⟩, s)
      else
        (⟨400, .message "Invalid credentials"⟩, s)

/-- Handler of `PUT /api/items/:id` (lines 124-136). -/
def updateItem (s : Store) (id : String) (title des : String) (price : Int)
    (image : String) : Response × Store :=
  match castObjectId id with
  | .error e => (⟨500, .error e⟩, s)
  | .ok x =>
    let s1 : Store := { s with items := setItem x title des price image s.items }
    (⟨200, .item (Item.byId s1 x)⟩, s1)

/-- Handler of `DELETE /api/items/:id` (lines 139-146). -/
def deleteItem (s : Store) (id : String) : Response × Store :=
  match castObjectId id with
  | .error e => (⟨500, .error e⟩, s)
  | .ok x =>
    (⟨200, .item (Item.byId s x)⟩,
      { s with items := s.items.eraseP (fun i => decide (i._id = x)) })

/-- Handler of `POST /api/cart` (lines 153-181); `userId` is the identity the
auth middleware attached to the request. -/
def addToCart (s : Store) (userId : ObjectId) (productId : Option String) :
    Response × Store :=
  match Item.findById s productId with
  | .error e => (⟨500, .error e⟩, s)
  | .ok none => (⟨404, .message "Product not found"⟩, s)
  | .ok (some product) =>
    let cart : Cart := (Cart.findOne s userId).getD ⟨userId, []⟩
    let found := cart.items.find? (fun item => decide (some item.product.toHexString = productId))
    let line : CartLine := ⟨product._id, product.title, product.image, product.price⟩
    let cart1 : Cart :=
      if found.isNone then { cart with items := cart.items ++ [line] } else cart
    match Cart.save s cart1 with
    | .error e => (⟨500, .error e⟩, s)
    | .ok s1 => (⟨201, .cart cart1⟩, s1)

/-- Handler of `GET /api/cart` (lines 184-192). -/
def getCart (s : Store) (userId : ObjectId) : Response × Store :=
  match Cart.findOne s userId with
  | some cart => (⟨200, .cart cart⟩, s)
  | none => (⟨200, .emptyItems⟩, s)

/-- Handler of `DELETE /api/cart/:productId` (lines 195-210). -/
def removeCartLine (s : Store) (userId : ObjectId) (productId : String) :
    Response × Store :=
  match Cart.findOne s userId with
  | none => (⟨404, .message "Cart not found"⟩, s)
  | some cart =>
    let kept := cart.items.filter (fun item => decide (item.product.toHexString ≠ productId))
    let cart1 : Cart := { cart with items := kept }
    match Cart.save s cart1 with
    | .error e => (⟨500, .error e⟩, s)
    | .ok s1 => (⟨200, .cart cart1⟩, s1)

/-- Handler of `DELETE /api/cart` (lines 213-221). -/
def clearCart (s : Store) (userId : ObjectId) : Response × Store :=
  (⟨200, .message "Cart cleared"⟩, Cart.findOneAndDelete s userId)

/-! ## Sequences of cart requests and store invariants -/

/-- The four cart requests, each with its authenticated caller. -/
inductive CartRequest where
  | add (user : ObjectId) (productId : Option String)
  | remove (user : ObjectId) (productId : String)
  | clear (user : ObjectId)
  | get (user : ObjectId)

/-- Store after serving one cart request. -/
def CartRequest.serve (s : Store) : CartRequest → Store
  | .add u p => (addToCart s u p).2
  | .remove u p => (removeCartLine s u p).2
  | .clear u => (clearCart s u).2
  | .get u => (getCart s u).2

/-- Store after serving a sequence of cart requests, one after the other. -/
def serveAll (s : Store) (rs : List CartRequest) : Store :=
  rs.foldl CartRequest.serve s

/-- No two lines of any stored cart carry the same product reference. -/
def oneLinePerProduct (s : Store) : Prop :=
  ∀ c ∈ s.carts, (c.items.map (fun l => l.product)).Nodup

/-- The `unique: true` index on `user` of the cart schema: no two cart
documents belong to the same user. -/
def cartsUnique (s : Store) : Prop :=
  (s.carts.map (fun c => c.user)).Nodup

/-- The required-field constraints of the cart schema hold on every stored
line. -/
def cartsValid (s : Store) : Prop :=
  ∀ c ∈ s.carts, c.items.all validLine = true

/-- All cart documents owned by `v`, in store order. -/
def cartRows (s : Store) (v : ObjectId) : List Cart :=
  s.carts.filter (fun c => decide (c.user = v))

/-! ## Sample data used to instantiate the theorems -/

/-- Identifier of the sample product. -/
def mugId : ObjectId := ⟨"aaaaaaaaaaaaaaaaaaaaaaaa".data, by decide⟩

/-- Identifier of the first sample user. -/
def annId : ObjectId := ⟨"000000000000000000000001".data, by decide⟩

/-- Identifier of the second sample user. -/
def benId : ObjectId := ⟨"000000000000000000000002".data, by decide⟩

/-- The sample product. -/
def mug : Item := ⟨mugId, "Mug", "Ceramic mug", 999, "mug.png"⟩

/-- The cart line that snapshots the sample product. -/
def mugLine : CartLine := ⟨mugId, "Mug", "mug.png", 999⟩

/-- A catalogue with the sample product, no users and no carts. -/
def shop : Store := ⟨[], [mug], []⟩

/-- The catalogue of `shop` with one cart for each sample user. -/
def shopWithCarts : Store := ⟨[], [mug], [⟨annId, [mugLine]⟩, ⟨benId, []⟩]⟩

/-- A toy environment: the hash of a password is the password behind a fixed
marker, and the token lists the two claims. -/
def toyEnv : Env :=
  { hash := fun pw => "hash:" ++ pw
    compare := fun pw h => decide (h = "hash:" ++ pw)
    sign := fun x email => x.toHexString ++ "/" ++ email }

/-- A store with one registered user whose password is `secret`. -/
def shopWithUser : Store := ⟨[⟨annId, "Ann", "ann@example.com", "hash:secret"⟩], [mug], []⟩


/-! ## Auxiliary facts about identifiers and the cart collection -/

theorem lowerHex_of_isLowerHexDigit (c : Char) (h : isLowerHexDigit c = true) :
    lowerHex c = c := by
  unfold isLowerHexDigit at h
  unfold lowerHex
  simp only [Bool.or_eq_true, Bool.and_eq_true, decide_eq_true_eq] at h
  have hn : ¬ (65 ≤ c.toNat ∧ c.toNat ≤ 70) := by omega
  simp [hn]

theorem map_lowerHex_of_canonical (cs : List Char) (h : isCanonicalHex cs = true) :
    cs.map lowerHex = cs := by
  unfold isCanonicalHex at h
  simp only [Bool.and_eq_true, List.all_eq_true] at h
  have h2 := h.2
  clear h
  induction cs with
  | nil => rfl
  | cons c cs ih =>
    simp only [List.map_cons]
    rw [lowerHex_of_isLowerHexDigit c (h2 c (List.mem_cons_self c cs))]
    rw [ih (fun x hx => h2 x (List.mem_cons_of_mem c hx))]

/-- Casting the text of an identifier gives the identifier back. -/
theorem castObjectId_toHexString (x : ObjectId) :
    castObjectId x.toHexString = .ok x := by
  have hm : x.toHexString.data.map lowerHex = x.digits :=
    map_lowerHex_of_canonical x.digits x.canonical
  unfold castObjectId
  have hc : isCanonicalHex (x.toHexString.data.map lowerHex) = true := by
    rw [hm]; exact x.canonical
  rw [dif_pos hc]
  cases x with
  | mk d c => simp only [ObjectId.toHexString] at hm ⊢; simp [hm]

theorem find_putCart_self (l : List Cart) (c : Cart) :
    (putCart l c).find? (fun d => decide (d.user = c.user)) = some c := by
  induction l with
  | nil => simp [putCart]
  | cons d ds ih =>
    unfold putCart
    by_cases h : d.user = c.user
    · simp [h]
    · simp [h, ih]

theorem filter_putCart_other (l : List Cart) (c : Cart) (v : ObjectId) (h : c.user ≠ v) :
    (putCart l c).filter (fun d => decide (d.user = v)) =
      l.filter (fun d => decide (d.user = v)) := by
  have hc : ¬ (decide (c.user = v) = true) := by simpa using h
  induction l with
  | nil => simp [putCart, h]
  | cons d ds ih =>
    unfold putCart
    by_cases hd : d.user = c.user
    · have hdv : ¬ (decide (d.user = v) = true) := by rw [hd]; exact hc
      rw [if_pos hd]
      simp only [List.filter_cons]
      rw [if_neg hc, if_neg hdv]
    · rw [if_neg hd, List.filter_cons, List.filter_cons, ih]

theorem putCart_of_find (l : List Cart) (c : Cart)
    (h : l.find? (fun d => decide (d.user = c.user)) = some c) : putCart l c = l := by
  induction l with
  | nil => simp at h
  | cons d ds ih =>
    unfold putCart
    by_cases hd : d.user = c.user
    · simp [hd] at h
      simp [hd, h]
    · simp [hd] at h
      simp [hd, ih h]

theorem filter_eraseP_other (l : List Cart) (u v : ObjectId) (h : u ≠ v) :
    (l.eraseP (fun d => decide (d.user = u))).filter (fun d => decide (d.user = v)) =
      l.filter (fun d => decide (d.user = v)) := by
  induction l with
  | nil => simp
  | cons d ds ih =>
    rw [List.eraseP_cons]
    by_cases hd : d.user = u
    · have hdv : ¬ (decide (d.user = v) = true) := by
        rw [hd]; simpa using h
      have hdu : decide (d.user = u) = true := by simpa using hd
      rw [hdu, cond_true]
      simp only [List.filter_cons]
      rw [if_neg hdv]
    · have hdu : decide (d.user = u) = false := by simpa using hd
      rw [hdu, cond_false, List.filter_cons, List.filter_cons, ih]

theorem find_eq_of_filter_eq {l1 l2 : List Cart} {v : ObjectId}
    (h : l1.filter (fun d => decide (d.user = v)) = l2.filter (fun d => decide (d.user = v))) :
    l1.find? (fun d => decide (d.user = v)) = l2.find? (fun d => decide (d.user = v)) := by
  rw [← List.filter_head?, ← List.filter_head?, h]

theorem find_eraseP_of_nodup (l : List Cart) (u : ObjectId)
    (h : (l.map (fun c => c.user)).Nodup) :
    (l.eraseP (fun d => decide (d.user = u))).find? (fun d => decide (d.user = u)) = none := by
  induction l with
  | nil => simp
  | cons d ds ih =>
    simp only [List.map_cons, List.nodup_cons] at h
    by_cases hd : d.user = u
    · simp only [List.eraseP_cons, hd, decide_True, if_true]
      rw [List.find?_eq_none]
      intro x hx
      simp only [decide_eq_true_eq]
      intro hxu
      apply h.1
      rw [hd, ← hxu]
      exact List.mem_map_of_mem _ hx
    · simp [List.eraseP_cons, hd, ih h.2]

theorem eraseP_of_find_none (l : List Cart) (u : ObjectId)
    (h : l.find? (fun d => decide (d.user = u)) = none) :
    l.eraseP (fun d => decide (d.user = u)) = l := by
  rw [List.find?_eq_none] at h
  exact List.eraseP_of_forall_not h

theorem user_of_findOne {s : Store} {u : ObjectId} {c : Cart}
    (h : Cart.findOne s u = some c) : c.user = u := by
  unfold Cart.findOne at h
  have := List.find?_some h
  simpa using this

/-! ## Cart removal, reading and clearing; login -/

theorem save_ok (s : Store) (c : Cart) (hv : c.items.all validLine = true) :
    Cart.save s c = .ok { s with carts := putCart s.carts c } := by
  unfold Cart.save
  rw [if_pos hv]

theorem all_validLine_filter (ls : List CartLine) (q : CartLine → Bool)
    (hv : ls.all validLine = true) : (ls.filter q).all validLine = true := by
  rw [List.all_eq_true] at hv ⊢
  intro l hl
  exact hv l (List.mem_filter.mp hl).1

theorem removeCartLine_of_cart (s : Store) (u : ObjectId) (p : String) (c : Cart)
    (hc : Cart.findOne s u = some c) (hv : c.items.all validLine = true) :
    removeCartLine s u p =
      (⟨200, .cart ⟨c.user, c.items.filter (fun l => decide (l.product.toHexString ≠ p))⟩⟩,
        ⟨s.users, s.items, putCart s.carts
          ⟨c.user, c.items.filter (fun l => decide (l.product.toHexString ≠ p))⟩⟩) := by
  unfold removeCartLine
  rw [hc]
  simp only []
  rw [save_ok s _ (all_validLine_filter c.items _ hv)]

/-- C3: when the caller has a cart (whose lines satisfy the schema) and no line
of it references `p` (no line has a product reference whose text is `p`, or `p`
casts to the product reference of no line), `DELETE /api/cart/:productId`
answers 200 with the very same cart, lines and order untouched, and the store
after the call is the store before it, so the persisted cart is that cart too. -/
theorem removeCartLine_absent_unchanged (s : Store) (u : ObjectId) (p : String) (c : Cart)
    (hc : Cart.findOne s u = some c)
    (hv : c.items.all validLine = true)
    (hp : (∀ l ∈ c.items, l.product.toHexString ≠ p) ∨
          (∀ l ∈ c.items, castObjectId p ≠ .ok l.product)) :
    (removeCartLine s u p).1 = ⟨200, .cart c⟩ ∧
    (removeCartLine s u p).2 = s ∧
    Cart.findOne (removeCartLine s u p).2 u = some c := by
  have hne : ∀ l ∈ c.items, l.product.toHexString ≠ p := by
    rcases hp with h | h
    · exact h
    · intro l hl heq
      apply h l hl
      rw [← heq]
      exact castObjectId_toHexString l.product
  have hf : c.items.filter (fun l => decide (l.product.toHexString ≠ p)) = c.items := by
    rw [List.filter_eq_self]
    intro l hl
    simpa using hne l hl
  have hcu : c.user = u := user_of_findOne hc
  have hfind : s.carts.find? (fun d => decide (d.user = c.user)) = some c := by
    rw [hcu]; exact hc
  have hrun := removeCartLine_of_cart s u p c hc hv
  rw [hf, putCart_of_find s.carts c hfind] at hrun
  rw [hrun]
  exact ⟨rfl, rfl, hc⟩

/-- Instance of C3: the sample cart lists the mug only; removing another
identifier returns it unchanged. -/
theorem removeCartLine_absent_unchanged_witness :
    Cart.findOne shopWithCarts annId = some ⟨annId, [mugLine]⟩ ∧
    (removeCartLine shopWithCarts annId "bbbbbbbbbbbbbbbbbbbbbbbb").1 =
      ⟨200, .cart ⟨annId, [mugLine]⟩⟩ ∧
    (removeCartLine shopWithCarts annId "bbbbbbbbbbbbbbbbbbbbbbbb").2 = shopWithCarts ∧
    Cart.findOne (removeCartLine shopWithCarts annId "bbbbbbbbbbbbbbbbbbbbbbbb").2 annId =
      some ⟨annId, [mugLine]⟩ :=
  ⟨by decide,
    removeCartLine_absent_unchanged shopWithCarts annId "bbbbbbbbbbbbbbbbbbbbbbbb"
      ⟨annId, [mugLine]⟩ (by decide) (by decide) (Or.inl (by decide))⟩

/-- What `DELETE /api/cart/:productId` does in terms of the text of the stored
references: 404 and no change without a cart row; otherwise 200, the returned
cart is the persisted one, and its lines are the prior lines whose product
reference, rendered by `toString()`, differs from the route parameter, in their
original order. -/
theorem removeCartLine_filters (s : Store) (u : ObjectId) (p : String) :
    (Cart.findOne s u = none →
      removeCartLine s u p = (⟨404, .message "Cart not found"⟩, s)) ∧
    (∀ c, Cart.findOne s u = some c → c.items.all validLine = true →
      (removeCartLine s u p).1 = ⟨200, .cart
        ⟨u, c.items.filter (fun l => decide (l.product.toHexString ≠ p))⟩⟩ ∧
      Cart.findOne (removeCartLine s u p).2 u =
        some ⟨u, c.items.filter (fun l => decide (l.product.toHexString ≠ p))⟩ ∧
      (c.items.filter (fun l => decide (l.product.toHexString ≠ p))).Sublist c.items ∧
      (∀ l ∈ c.items.filter (fun l => decide (l.product.toHexString ≠ p)),
        l.product.toHexString ≠ p) ∧
      (∀ l ∈ c.items, l.product.toHexString ≠ p →
        l ∈ c.items.filter (fun l => decide (l.product.toHexString ≠ p)))) := by
  constructor
  · intro h
    unfold removeCartLine
    rw [h]
  · intro c hc hv
    have hcu : c.user = u := user_of_findOne hc
    have hrun := removeCartLine_of_cart s u p c hc hv
    rw [hcu] at hrun
    refine ⟨?_, ?_, List.filter_sublist _, ?_, ?_⟩
    · rw [hrun]
    · rw [hrun]
      exact find_putCart_self s.carts ⟨u, _⟩
    · intro l hl
      simpa using (List.mem_filter.mp hl).2
    · intro l hl hne
      exact List.mem_filter.mpr ⟨hl, by simpa using hne⟩

/-- C5: for a caller without a cart row, `GET /api/cart` answers 200 with a body
whose `items` array is empty, leaves the store as it was, and the caller still
has no cart row afterwards. -/
theorem getCart_without_row (s : Store) (u : ObjectId) (h : Cart.findOne s u = none) :
    (getCart s u).1 = ⟨200, .emptyItems⟩ ∧
    (getCart s u).1.body.items = some [] ∧
    (getCart s u).1.body.items.map List.length = some 0 ∧
    (getCart s u).2 = s ∧
    Cart.findOne (getCart s u).2 u = none := by
  unfold getCart
  rw [h]
  exact ⟨rfl, rfl, rfl, rfl, h⟩

/-- Instance of C5 on the store without carts. -/
theorem getCart_without_row_witness :
    Cart.findOne shop annId = none ∧
    (getCart shop annId).1 = ⟨200, .emptyItems⟩ ∧
    (getCart shop annId).1.body.items = some [] ∧
    (getCart shop annId).1.body.items.map List.length = some 0 ∧
    (getCart shop annId).2 = shop ∧
    Cart.findOne (getCart shop annId).2 annId = none :=
  ⟨by decide, getCart_without_row shop annId (by decide)⟩

/-- C6: in a store that respects the one-cart-per-user index, `DELETE /api/cart`
answers 200 with the message "Cart cleared" whether or not the caller had a
cart; afterwards the caller has no cart row, `GET /api/cart` returns an empty
`items` array, and clearing a second time gives the same store as clearing
once. -/
theorem clearCart_then_empty (s : Store) (u : ObjectId) (h : cartsUnique s) :
    (clearCart s u).1 = ⟨200, .message "Cart cleared"⟩ ∧
    Cart.findOne (clearCart s u).2 u = none ∧
    (getCart (clearCart s u).2 u).1 = ⟨200, .emptyItems⟩ ∧
    (getCart (clearCart s u).2 u).1.body.items = some [] ∧
    (clearCart (clearCart s u).2 u).2 = (clearCart s u).2 := by
  have hnone : Cart.findOne (clearCart s u).2 u = none :=
    find_eraseP_of_nodup s.carts u h
  have hget : (getCart (clearCart s u).2 u).1 = ⟨200, .emptyItems⟩ := by
    unfold getCart
    rw [hnone]
  refine ⟨rfl, hnone, hget, ?_, ?_⟩
  · rw [hget]; rfl
  · show Cart.findOneAndDelete (Cart.findOneAndDelete s u) u = Cart.findOneAndDelete s u
    have := eraseP_of_find_none _ u hnone
    unfold Cart.findOneAndDelete at this ⊢
    simp only [clearCart, Cart.findOneAndDelete] at this
    simp only [this]

/-- Instance of C6 on the store where both sample users have a cart. -/
theorem clearCart_then_empty_witness :
    cartsUnique shopWithCarts ∧
    (clearCart shopWithCarts annId).1 = ⟨200, .message "Cart cleared"⟩ ∧
    Cart.findOne (clearCart shopWithCarts annId).2 annId = none ∧
    (getCart (clearCart shopWithCarts annId).2 annId).1 = ⟨200, .emptyItems⟩ ∧
    (getCart (clearCart shopWithCarts annId).2 annId).1.body.items = some [] ∧
    (clearCart (clearCart shopWithCarts annId).2 annId).2 = (clearCart shopWithCarts annId).2 :=
  ⟨by unfold cartsUnique; decide,
    clearCart_then_empty shopWithCarts annId (by unfold cartsUnique; decide)⟩

/-- C7: the login response for an email that matches no user (whatever the
password field holds) is identical, status and body, to the login response for
an email that matches a user whose stored hash the supplied password fails to
match: both are 400 with the message "Invalid credentials". -/
theorem login_failures_identical (env : Env) (s : Store) (e1 : String)
    (pw1 : Option String) (e2 w : String) (user : User)
    (h1 : User.findOne s e1 = none)
    (h2 : User.findOne s e2 = some user)
    (h3 : env.compare w user.password = false) :
    (login env s e1 pw1).1 = (login env s e2 (some w)).1 ∧
    (login env s e1 pw1).1 = ⟨400, .message "Invalid credentials"⟩ ∧
    (login env s e2 (some w)).1 = ⟨400, .message "Invalid credentials"⟩ := by
  have a : (login env s e1 pw1).1 = ⟨400, .message "Invalid credentials"⟩ := by
    unfold login
    rw [h1]
  have b : (login env s e2 (some w)).1 = ⟨400, .message "Invalid credentials"⟩ := by
    unfold login
    rw [h2]
    simp [h3]
  exact ⟨a.trans b.symm, a, b⟩

/-- Instance of C7: an unknown email against a known email with a wrong
password. -/
theorem login_failures_identical_witness :
    User.findOne shopWithUser "eve@example.com" = none ∧
    User.findOne shopWithUser "ann@example.com" =
      some ⟨annId, "Ann", "ann@example.com", "hash:secret"⟩ ∧
    toyEnv.compare "guess" "hash:secret" = false ∧
    (login toyEnv shopWithUser "eve@example.com" (some "guess")).1 =
      (login toyEnv shopWithUser "ann@example.com" (some "guess")).1 ∧
    (login toyEnv shopWithUser "eve@example.com" (some "guess")).1 =
      ⟨400, .message "Invalid credentials"⟩ ∧
    (login toyEnv shopWithUser "ann@example.com" (some "guess")).1 =
      ⟨400, .message "Invalid credentials"⟩ :=
  ⟨by decide, by decide, by decide,
    login_failures_identical toyEnv shopWithUser "eve@example.com" (some "guess")
      "ann@example.com" "guess" ⟨annId, "Ann", "ann@example.com", "hash:secret"⟩
      (by decide) (by decide) (by decide)⟩

/-! ## Registration and catalogue changes -/

theorem find_append_of_none {α : Type} (q : α → Bool) (l : List α) (a : α)
    (h : l.find? q = none) (ha : q a = true) : (l ++ [a]).find? q = some a := by
  rw [List.find?_append, h]
  simp [List.find?_cons, ha]

/-- C8: when a registration for an email has succeeded (status 201), a second
registration with that email, under any name and password, answers 400 with
the message "User already exists" and leaves the store exactly as the first
registration left it: the user list is the same, the record found for the email
still has the identifier, name, email and password hash of the first registration. -/
theorem register_twice_conflict (env : Env) (s : Store) (email : String)
    (name1 : String) (pw1 : Option String) (id1 : ObjectId)
    (name2 : String) (pw2 : Option String) (id2 : ObjectId)
    (h : (register env s name1 email pw1 id1).1.status = 201) :
    register env (register env s name1 email pw1 id1).2 name2 email pw2 id2 =
      (⟨400, .message "User already exists"⟩, (register env s name1 email pw1 id1).2) ∧
    (register env (register env s name1 email pw1 id1).2 name2 email pw2 id2).2.users =
      (register env s name1 email pw1 id1).2.users ∧
    User.findOne (register env s name1 email pw1 id1).2 email =
      pw1.map (fun w => ⟨id1, name1, email, env.hash w⟩) ∧
    User.findOne (register env (register env s name1 email pw1 id1).2 name2 email pw2 id2).2
      email = pw1.map (fun w => ⟨id1, name1, email, env.hash w⟩) ∧
    pw1.isSome = true := by
  cases hf : User.findOne s email with
  | some u0 =>
    simp [register, hf] at h
  | none =>
    cases pw1 with
    | none => simp [register, hf] at h
    | some w =>
      have hs1 : (register env s name1 email (some w) id1).2 =
          User.create s ⟨id1, name1, email, env.hash w⟩ := by
        simp [register, hf]
      have hfound : User.findOne (User.create s ⟨id1, name1, email, env.hash w⟩) email =
          some ⟨id1, name1, email, env.hash w⟩ := by
        unfold User.findOne at hf ⊢
        exact find_append_of_none _ _ _ hf (by simp)
      have hsecond : register env (User.create s ⟨id1, name1, email, env.hash w⟩)
          name2 email pw2 id2 =
          (⟨400, .message "User already exists"⟩,
            User.create s ⟨id1, name1, email, env.hash w⟩) := by
        unfold register
        rw [hfound]
      rw [hs1, hsecond]
      exact ⟨rfl, rfl, hfound, hfound, rfl⟩

/-- Instance of C8: Ann registers in the empty shop, then someone registers
again with her email. -/
theorem register_twice_conflict_witness :
    (register toyEnv shop "Ann" "ann@example.com" (some "secret") annId).1.status = 201 ∧
    register toyEnv (register toyEnv shop "Ann" "ann@example.com" (some "secret") annId).2
      "Eve" "ann@example.com" (some "other") benId =
      (⟨400, .message "User already exists"⟩, shopWithUser) ∧
    (register toyEnv shop "Ann" "ann@example.com" (some "secret") annId).2 = shopWithUser :=
  ⟨by decide,
    (by decide : (register toyEnv shop "Ann" "ann@example.com" (some "secret") annId).2 =
        shopWithUser) ▸
      (register_twice_conflict toyEnv shop "ann@example.com" "Ann" (some "secret") annId
        "Eve" (some "other") benId (by decide)).1,
    by decide⟩

theorem carts_updateItem (s : Store) (id title des : String) (price : Int) (image : String) :
    (updateItem s id title des price image).2.carts = s.carts := by
  unfold updateItem
  cases castObjectId id <;> rfl

theorem carts_deleteItem (s : Store) (id : String) : (deleteItem s id).2.carts = s.carts := by
  unfold deleteItem
  cases castObjectId id <;> rfl

/-- C9: `PUT /api/items/:id` and `DELETE /api/items/:id` leave the cart
collection of every store as it was, for every identifier and body.  Hence,
when `POST /api/cart` succeeds for a product that the cart of the caller did not
list, that cart ends with a line holding the identifier of the item, its
title as name, its image and its price as they were at that moment, and that
cart is still the cart of the caller, line for line, after any later update or
deletion of an item. -/
theorem item_changes_keep_carts (s : Store) (id title des : String) (price : Int)
    (image : String) :
    (updateItem s id title des price image).2.carts = s.carts ∧
    (deleteItem s id).2.carts = s.carts ∧
    (∀ (s0 : Store) (u : ObjectId) (p : String) (product : Item),
      Item.findById s0 (some p) = .ok (some product) →
      (∀ l ∈ ((Cart.findOne s0 u).getD ⟨u, []⟩).items, l.product.toHexString ≠ p) →
      (addToCart s0 u (some p)).1.status = 201 →
      s = (addToCart s0 u (some p)).2 →
      Cart.findOne s u = some ⟨u, ((Cart.findOne s0 u).getD ⟨u, []⟩).items ++
        [⟨product._id, product.title, product.image, product.price⟩]⟩ ∧
      Cart.findOne (updateItem s id title des price image).2 u = Cart.findOne s u ∧
      Cart.findOne (deleteItem s id).2 u = Cart.findOne s u) := by
  refine ⟨carts_updateItem s id title des price image, carts_deleteItem s id, ?_⟩
  intro s0 u p product hp hnew hok hs
  have hnone : List.find? (fun item => decide (some item.product.toHexString = some p))
      ((Cart.findOne s0 u).getD ⟨u, []⟩).items = none := by
    rw [List.find?_eq_none]
    intro l hl
    simpa using hnew l hl
  have huser : ((Cart.findOne s0 u).getD ⟨u, []⟩).user = u := by
    cases hc : Cart.findOne s0 u with
    | none => rfl
    | some c => exact user_of_findOne hc
  cases hsave : Cart.save s0 ⟨u, ((Cart.findOne s0 u).getD ⟨u, []⟩).items ++
      [⟨product._id, product.title, product.image, product.price⟩]⟩ with
  | error e =>
    exfalso
    unfold addToCart at hok
    rw [hp] at hok
    simp only [hnone, Option.isNone_none, if_true, huser, hsave] at hok
    simp at hok
  | ok s1 =>
    have hadd : (addToCart s0 u (some p)).2 = s1 := by
      unfold addToCart
      rw [hp]
      simp only [hnone, Option.isNone_none, if_true, huser, hsave]
    have hs1 : s1.carts = putCart s0.carts ⟨u, ((Cart.findOne s0 u).getD ⟨u, []⟩).items ++
        [⟨product._id, product.title, product.image, product.price⟩]⟩ := by
      unfold Cart.save at hsave
      split at hsave
      · injection hsave with hsave
        rw [← hsave]
      · cases hsave
    have hfind : Cart.findOne s u = some ⟨u, ((Cart.findOne s0 u).getD ⟨u, []⟩).items ++
        [⟨product._id, product.title, product.image, product.price⟩]⟩ := by
      rw [hs, hadd]
      unfold Cart.findOne
      rw [hs1]
      exact find_putCart_self s0.carts ⟨u, _⟩
    refine ⟨hfind, ?_, ?_⟩
    · unfold Cart.findOne
      rw [carts_updateItem]
    · unfold Cart.findOne
      rw [carts_deleteItem]

/-- Instance of C9: Ann adds the mug, then the mug is renamed and repriced, or
deleted; her cart still holds the line with the name, image and price the mug
had when she added it. -/
theorem item_changes_keep_carts_witness :
    Item.findById shop (some "aaaaaaaaaaaaaaaaaaaaaaaa") = .ok (some mug) ∧
    (addToCart shop annId (some "aaaaaaaaaaaaaaaaaaaaaaaa")).1.status = 201 ∧
    (updateItem (addToCart shop annId (some "aaaaaaaaaaaaaaaaaaaaaaaa")).2
        "aaaaaaaaaaaaaaaaaaaaaaaa" "Cup" "Paper cup" 100 "cup.png").2.items =
      [⟨mugId, "Cup", "Paper cup", 100, "cup.png"⟩] ∧
    (deleteItem (addToCart shop annId (some "aaaaaaaaaaaaaaaaaaaaaaaa")).2
        "aaaaaaaaaaaaaaaaaaaaaaaa").2.items = [] ∧
    Cart.findOne (addToCart shop annId (some "aaaaaaaaaaaaaaaaaaaaaaaa")).2 annId =
      some ⟨annId, [⟨mugId, "Mug", "mug.png", 999⟩]⟩ ∧
    Cart.findOne (updateItem (addToCart shop annId (some "aaaaaaaaaaaaaaaaaaaaaaaa")).2
        "aaaaaaaaaaaaaaaaaaaaaaaa" "Cup" "Paper cup" 100 "cup.png").2 annId =
      Cart.findOne (addToCart shop annId (some "aaaaaaaaaaaaaaaaaaaaaaaa")).2 annId ∧
    Cart.findOne (deleteItem (addToCart shop annId (some "aaaaaaaaaaaaaaaaaaaaaaaa")).2
        "aaaaaaaaaaaaaaaaaaaaaaaa").2 annId =
      Cart.findOne (addToCart shop annId (some "aaaaaaaaaaaaaaaaaaaaaaaa")).2 annId :=
  ⟨by decide, by decide, by decide, by decide,
    (item_changes_keep_carts (addToCart shop annId (some "aaaaaaaaaaaaaaaaaaaaaaaa")).2
      "aaaaaaaaaaaaaaaaaaaaaaaa" "Cup" "Paper cup" 100 "cup.png").2.2
      shop annId "aaaaaaaaaaaaaaaaaaaaaaaa" mug (by decide) (by decide) (by decide) rfl⟩

/-! ## Ownership of carts, and the duplicate check at a failing input -/

theorem carts_save {s s1 : Store} {c : Cart} (h : Cart.save s c = .ok s1) :
    s1.carts = putCart s.carts c := by
  unfold Cart.save at h
  split at h
  · injection h with h
    rw [← h]
  · cases h

theorem carts_addToCart (s : Store) (u : ObjectId) (p : Option String) :
    (addToCart s u p).2.carts = s.carts ∨
      ∃ c : Cart, c.user = u ∧ (addToCart s u p).2.carts = putCart s.carts c := by
  have huser : ((Cart.findOne s u).getD ⟨u, []⟩).user = u := by
    cases hc : Cart.findOne s u with
    | none => rfl
    | some c => exact user_of_findOne hc
  unfold addToCart
  cases hf : Item.findById s p with
  | error e => exact Or.inl rfl
  | ok found =>
    cases found with
    | none => exact Or.inl rfl
    | some product =>
      simp only []
      split
      · exact Or.inl rfl
      · rename_i s1 hsave
        refine Or.inr ⟨_, ?_, carts_save hsave⟩
        split
        · exact huser
        · exact huser

theorem carts_removeCartLine (s : Store) (u : ObjectId) (p : String) :
    (removeCartLine s u p).2.carts = s.carts ∨
      ∃ c : Cart, c.user = u ∧ (removeCartLine s u p).2.carts = putCart s.carts c := by
  unfold removeCartLine
  cases hc : Cart.findOne s u with
  | none => exact Or.inl rfl
  | some c =>
    simp only []
    split
    · exact Or.inl rfl
    · rename_i s1 hsave
      exact Or.inr ⟨⟨c.user, c.items.filter (fun item => decide (item.product.toHexString ≠ p))⟩,
        (user_of_findOne hc : c.user = u), carts_save hsave⟩

theorem cartRows_of_carts (s t : Store) (u v : ObjectId) (h : u ≠ v)
    (ht : t.carts = s.carts ∨ ∃ c : Cart, c.user = u ∧ t.carts = putCart s.carts c) :
    cartRows t v = cartRows s v := by
  unfold cartRows
  rcases ht with ht | ⟨c, hc, ht⟩
  · rw [ht]
  · rw [ht]
    exact filter_putCart_other s.carts c v (by rw [hc]; exact h)

theorem findOne_of_cartRows {s t : Store} {v : ObjectId} (h : cartRows t v = cartRows s v) :
    Cart.findOne t v = Cart.findOne s v :=
  find_eq_of_filter_eq h

theorem findById_of_items (s t : Store) (p : Option String) (h : t.items = s.items) :
    Item.findById t p = Item.findById s p := by
  unfold Item.findById Item.byId
  rw [h]

theorem save_response (s t : Store) (c : Cart) (r : Response) :
    (match Cart.save t c with
      | .error e => ((⟨500, .error e⟩ : Response), t)
      | .ok s1 => (r, s1)).1 =
    (match Cart.save s c with
      | .error e => ((⟨500, .error e⟩ : Response), s)
      | .ok s1 => (r, s1)).1 := by
  unfold Cart.save
  by_cases hv : c.items.all validLine = true
  · rw [if_pos hv, if_pos hv]
  · rw [if_neg hv, if_neg hv]

/-- C10: for a caller `u`, none of the four cart handlers changes the cart rows
of another user `v`: the rows owned by `v` (their number, order and lines) and
the cart found for `v` are the same after the call as before, for every store
and every request value.  Each handler also reads no cart but that of the caller: two
stores with the same catalogue and the same cart for `u` get the same response,
whatever the carts of other users hold. -/
theorem cart_handlers_touch_own_cart_only (s : Store) (u : ObjectId)
    (pa : Option String) (pr : String) :
    (∀ v, u ≠ v →
      (cartRows (addToCart s u pa).2 v = cartRows s v ∧
        Cart.findOne (addToCart s u pa).2 v = Cart.findOne s v) ∧
      (cartRows (getCart s u).2 v = cartRows s v ∧
        Cart.findOne (getCart s u).2 v = Cart.findOne s v) ∧
      (cartRows (removeCartLine s u pr).2 v = cartRows s v ∧
        Cart.findOne (removeCartLine s u pr).2 v = Cart.findOne s v) ∧
      (cartRows (clearCart s u).2 v = cartRows s v ∧
        Cart.findOne (clearCart s u).2 v = Cart.findOne s v)) ∧
    (∀ t : Store, t.items = s.items → Cart.findOne t u = Cart.findOne s u →
      (addToCart t u pa).1 = (addToCart s u pa).1 ∧
      (getCart t u).1 = (getCart s u).1 ∧
      (removeCartLine t u pr).1 = (removeCartLine s u pr).1 ∧
      (clearCart t u).1 = (clearCart s u).1) := by
  constructor
  · intro v h
    have ha := cartRows_of_carts s (addToCart s u pa).2 u v h (carts_addToCart s u pa)
    have hg : cartRows (getCart s u).2 v = cartRows s v := by
      unfold getCart
      cases Cart.findOne s u <;> rfl
    have hr := cartRows_of_carts s (removeCartLine s u pr).2 u v h (carts_removeCartLine s u pr)
    have hcl : cartRows (clearCart s u).2 v = cartRows s v :=
      filter_eraseP_other s.carts u v h
    exact ⟨⟨ha, findOne_of_cartRows ha⟩, ⟨hg, findOne_of_cartRows hg⟩,
      ⟨hr, findOne_of_cartRows hr⟩, ⟨hcl, findOne_of_cartRows hcl⟩⟩
  · intro t hi hc
    refine ⟨?_, ?_, ?_, rfl⟩
    · unfold addToCart
      rw [findById_of_items s t pa hi, hc]
      cases Item.findById s pa with
      | error e => rfl
      | ok found =>
        cases found with
        | none => rfl
        | some product => exact save_response s t _ _
    · unfold getCart
      rw [hc]
      cases Cart.findOne s u <;> rfl
    · unfold removeCartLine
      rw [hc]
      cases Cart.findOne s u with
      | none => rfl
      | some c => exact save_response s t _ _

/-- Instance of C10: Ann adds, reads, removes and clears; the cart row of Ben is the
same after each call. -/
theorem cart_handlers_touch_own_cart_only_witness :
    annId ≠ benId ∧
    (cartRows (addToCart shopWithCarts annId (some "aaaaaaaaaaaaaaaaaaaaaaaa")).2 benId =
        cartRows shopWithCarts benId ∧
      Cart.findOne (addToCart shopWithCarts annId (some "aaaaaaaaaaaaaaaaaaaaaaaa")).2 benId =
        Cart.findOne shopWithCarts benId) ∧
    (cartRows (getCart shopWithCarts annId).2 benId = cartRows shopWithCarts benId ∧
      Cart.findOne (getCart shopWithCarts annId).2 benId = Cart.findOne shopWithCarts benId) ∧
    (cartRows (removeCartLine shopWithCarts annId "aaaaaaaaaaaaaaaaaaaaaaaa").2 benId =
        cartRows shopWithCarts benId ∧
      Cart.findOne (removeCartLine shopWithCarts annId "aaaaaaaaaaaaaaaaaaaaaaaa").2 benId =
        Cart.findOne shopWithCarts benId) ∧
    (cartRows (clearCart shopWithCarts annId).2 benId = cartRows shopWithCarts benId ∧
      Cart.findOne (clearCart shopWithCarts annId).2 benId =
        Cart.findOne shopWithCarts benId) :=
  ⟨by decide,
    (cart_handlers_touch_own_cart_only shopWithCarts annId (some "aaaaaaaaaaaaaaaaaaaaaaaa")
      "aaaaaaaaaaaaaaaaaaaaaaaa").1 benId (by decide)⟩

/-- C1 at a failing input: the product identifier is sent in upper case.  It
resolves to the stored item, the first `POST /api/cart` returns a cart with one
line, and the second returns and persists a cart with two lines for that same
product. -/
theorem addToCart_twice_upper_case :
    Item.findById shop (some "AAAAAAAAAAAAAAAAAAAAAAAA") = .ok (some mug) ∧
    (addToCart shop annId (some "AAAAAAAAAAAAAAAAAAAAAAAA")).1 =
      ⟨201, .cart ⟨annId, [mugLine]⟩⟩ ∧
    (addToCart (addToCart shop annId (some "AAAAAAAAAAAAAAAAAAAAAAAA")).2 annId
      (some "AAAAAAAAAAAAAAAAAAAAAAAA")).1 = ⟨201, .cart ⟨annId, [mugLine, mugLine]⟩⟩ ∧
    Cart.findOne (addToCart (addToCart shop annId (some "AAAAAAAAAAAAAAAAAAAAAAAA")).2 annId
      (some "AAAAAAAAAAAAAAAAAAAAAAAA")).2 annId = some ⟨annId, [mugLine, mugLine]⟩ := by
  decide

/-- C2 at a failing input: starting from a store without carts, two
`POST /api/cart` requests that spell the same product identifier in upper case
lead to a stored cart with two lines for one product reference. -/
theorem oneLinePerProduct_broken :
    shop.carts = [] ∧
    (serveAll shop [.add annId (some "AAAAAAAAAAAAAAAAAAAAAAAA"),
      .add annId (some "AAAAAAAAAAAAAAAAAAAAAAAA")]).carts = [⟨annId, [mugLine, mugLine]⟩] ∧
    ¬ oneLinePerProduct (serveAll shop [.add annId (some "AAAAAAAAAAAAAAAAAAAAAAAA"),
      .add annId (some "AAAAAAAAAAAAAAAAAAAAAAAA")]) := by
  have h : (serveAll shop [.add annId (some "AAAAAAAAAAAAAAAAAAAAAAAA"),
      .add annId (some "AAAAAAAAAAAAAAAAAAAAAAAA")]).carts = [⟨annId, [mugLine, mugLine]⟩] := by
    decide
  refine ⟨rfl, h, ?_⟩
  intro hinv
  have := hinv ⟨annId, [mugLine, mugLine]⟩ (by rw [h]; exact List.mem_singleton.mpr rfl)
  simp at this

/-- C4 at a failing input: the route parameter spells the identifier of the
product in upper case.  That text casts to the product reference of the only
line of the cart, and `POST /api/cart` resolves it to the stored item, yet
`DELETE /api/cart/:productId` answers 200 with the line still in the returned
cart and in the persisted cart: a line for the product remains. -/
theorem removeCartLine_upper_case_keeps_line :
    castObjectId "AAAAAAAAAAAAAAAAAAAAAAAA" = .ok mugLine.product ∧
    Item.findById shopWithCarts (some "AAAAAAAAAAAAAAAAAAAAAAAA") = .ok (some mug) ∧
    Cart.findOne shopWithCarts annId = some ⟨annId, [mugLine]⟩ ∧
    (removeCartLine shopWithCarts annId "AAAAAAAAAAAAAAAAAAAAAAAA").1 =
      ⟨200, .cart ⟨annId, [mugLine]⟩⟩ ∧
    Cart.findOne (removeCartLine shopWithCarts annId "AAAAAAAAAAAAAAAAAAAAAAAA").2 annId =
      some ⟨annId, [mugLine]⟩ ∧
    (removeCartLine shopWithCarts annId "aaaaaaaaaaaaaaaaaaaaaaaa").1 =
      ⟨200, .cart ⟨annId, []⟩⟩ := by
  decide

/-! ## The schema constraints are invariants of the cart handlers -/

theorem mem_putCart {l : List Cart} {c d : Cart} (h : d ∈ putCart l c) : d ∈ l ∨ d = c := by
  induction l with
  | nil =>
    simp only [putCart, List.mem_singleton] at h
    exact Or.inr h
  | cons e es ih =>
    unfold putCart at h
    by_cases he : e.user = c.user
    · rw [if_pos he] at h
      rcases List.mem_cons.mp h with h | h
      · exact Or.inr h
      · exact Or.inl (List.mem_cons_of_mem e h)
    · rw [if_neg he] at h
      rcases List.mem_cons.mp h with h | h
      · exact Or.inl (h ▸ List.mem_cons_self e es)
      · rcases ih h with h | h
        · exact Or.inl (List.mem_cons_of_mem e h)
        · exact Or.inr h

theorem map_user_putCart (l : List Cart) (c : Cart) :
    (putCart l c).map (fun d => d.user) =
      if c.user ∈ l.map (fun d => d.user) then l.map (fun d => d.user)
      else l.map (fun d => d.user) ++ [c.user] := by
  induction l with
  | nil => simp [putCart]
  | cons e es ih =>
    unfold putCart
    by_cases he : e.user = c.user
    · simp [he]
    · have hne : ¬ c.user = e.user := fun h => he h.symm
      rw [if_neg he, List.map_cons, ih]
      by_cases hm : c.user ∈ es.map (fun d => d.user)
      · simp [hm]
      · simp only [List.map_cons, List.mem_cons, hne, false_or, hm, if_false, List.cons_append]

theorem nodup_putCart (l : List Cart) (c : Cart) (h : (l.map (fun d => d.user)).Nodup) :
    ((putCart l c).map (fun d => d.user)).Nodup := by
  rw [map_user_putCart]
  split
  · exact h
  · rename_i hm
    rw [List.nodup_append]
    refine ⟨h, List.nodup_singleton _, ?_⟩
    intro a ha hb
    rw [List.mem_singleton] at hb
    exact hm (hb ▸ ha)

theorem nodup_eraseP (l : List Cart) (u : ObjectId) (h : (l.map (fun d => d.user)).Nodup) :
    ((l.eraseP (fun d => decide (d.user = u))).map (fun d => d.user)).Nodup :=
  h.sublist ((List.eraseP_sublist l).map _)

theorem valid_of_save {s s1 : Store} {c : Cart} (h : Cart.save s c = .ok s1) :
    c.items.all validLine = true := by
  unfold Cart.save at h
  split at h
  · assumption
  · cases h

/-- Both schema constraints on the cart collection survive every cart request:
one cart per user, and required fields present on every line. -/
theorem conforms_serve (s : Store) (r : CartRequest)
    (h : cartsUnique s ∧ cartsValid s) :
    cartsUnique (r.serve s) ∧ cartsValid (r.serve s) := by
  obtain ⟨hu, hv⟩ := h
  have put : ∀ (t : Store) (c : Cart), t.carts = putCart s.carts c →
      c.items.all validLine = true → cartsUnique t ∧ cartsValid t := by
    intro t c ht hc
    constructor
    · unfold cartsUnique
      rw [ht]
      exact nodup_putCart s.carts c hu
    · intro d hd
      rw [ht] at hd
      rcases mem_putCart hd with hd | hd
      · exact hv d hd
      · rw [hd]; exact hc
  have same : ∀ t : Store, t.carts = s.carts → cartsUnique t ∧ cartsValid t := by
    intro t ht
    unfold cartsUnique cartsValid
    rw [ht]
    exact ⟨hu, hv⟩
  cases r with
  | add u p =>
    show cartsUnique (addToCart s u p).2 ∧ cartsValid (addToCart s u p).2
    unfold addToCart
    cases Item.findById s p with
    | error e => exact same _ rfl
    | ok found =>
      cases found with
      | none => exact same _ rfl
      | some product =>
        simp only []
        split
        · exact same _ rfl
        · rename_i s1 hsave
          exact put s1 _ (carts_save hsave) (valid_of_save hsave)
  | remove u p =>
    show cartsUnique (removeCartLine s u p).2 ∧ cartsValid (removeCartLine s u p).2
    unfold removeCartLine
    cases Cart.findOne s u with
    | none => exact same _ rfl
    | some c =>
      simp only []
      split
      · exact same _ rfl
      · rename_i s1 hsave
        exact put s1 _ (carts_save hsave) (valid_of_save hsave)
  | clear u =>
    constructor
    · exact nodup_eraseP s.carts u hu
    · intro d hd
      exact hv d (List.mem_of_mem_eraseP hd)
  | get u =>
    show cartsUnique (getCart s u).2 ∧ cartsValid (getCart s u).2
    unfold getCart
    cases Cart.findOne s u <;> exact same _ rfl

/-- Every store reached from one without carts by cart requests satisfies both
schema constraints. -/
theorem conforms_serveAll (s : Store) (rs : List CartRequest) (h : s.carts = []) :
    cartsUnique (serveAll s rs) ∧ cartsValid (serveAll s rs) := by
  have start : cartsUnique s ∧ cartsValid s := by
    unfold cartsUnique cartsValid
    rw [h]
    exact ⟨List.nodup_nil, fun c hc => absurd hc (List.not_mem_nil c)⟩
  unfold serveAll
  generalize s = t at start
  clear h
  induction rs generalizing t with
  | nil => exact start
  | cons r rs ih => exact ih (r.serve t) (conforms_serve t r start)

/-! ## What the duplicate check of `POST /api/cart` does achieve -/

theorem items_save {s s1 : Store} {c : Cart} (h : Cart.save s c = .ok s1) :
    s1.items = s.items := by
  unfold Cart.save at h
  split at h
  · injection h with h
    rw [← h]
  · cases h

theorem findById_toHexString (t : Store) (x : ObjectId) :
    Item.findById t (some x.toHexString) = .ok (Item.byId t x) := by
  simp only [Item.findById, castObjectId_toHexString]

/-- The cart document `POST /api/cart` hands to `save`. -/
theorem addToCart_of_product (s : Store) (u : ObjectId) (p : Option String) (product : Item)
    (hp : Item.findById s p = .ok (some product)) :
    ∃ c1 : Cart, c1.user = u ∧
      (c1 = (Cart.findOne s u).getD ⟨u, []⟩ ∨
        c1.items = ((Cart.findOne s u).getD ⟨u, []⟩).items ++
          [⟨product._id, product.title, product.image, product.price⟩]) ∧
      (∃ l ∈ c1.items, some l.product.toHexString = p ∨ l.product = product._id) ∧
      addToCart s u p =
        (match Cart.save s c1 with
          | .error e => (⟨500, .error e⟩, s)
          | .ok s1 => (⟨201, .cart c1⟩, s1)) := by
  have huser : ((Cart.findOne s u).getD ⟨u, []⟩).user = u := by
    cases hc : Cart.findOne s u with
    | none => rfl
    | some c => exact user_of_findOne hc
  cases hfound : List.find? (fun item => decide (some item.product.toHexString = p))
      ((Cart.findOne s u).getD ⟨u, []⟩).items with
  | some l0 =>
    refine ⟨(Cart.findOne s u).getD ⟨u, []⟩, huser, Or.inl rfl,
      ⟨l0, List.mem_of_find?_eq_some hfound, Or.inl (by simpa using List.find?_some hfound)⟩, ?_⟩
    unfold addToCart
    rw [hp]
    simp only [hfound, Option.isNone_some]
    rfl
  | none =>
    refine ⟨⟨u, ((Cart.findOne s u).getD ⟨u, []⟩).items ++
      [⟨product._id, product.title, product.image, product.price⟩]⟩, rfl, Or.inr rfl,
      ⟨⟨product._id, product.title, product.image, product.price⟩, by simp, Or.inr rfl⟩, ?_⟩
    unfold addToCart
    rw [hp]
    simp only [hfound, Option.isNone_none, if_true, huser]

/-- When the product identifier is sent as the lower-case text of an
identifier, a successful `POST /api/cart` followed by the same request returns
the same cart again and leaves the store as the first call left it. -/
theorem addToCart_again_canonical (s : Store) (u x : ObjectId)
    (h : (addToCart s u (some x.toHexString)).1.status = 201) :
    addToCart (addToCart s u (some x.toHexString)).2 u (some x.toHexString) =
      addToCart s u (some x.toHexString) := by
  cases hprod : Item.byId s x with
  | none =>
    exfalso
    unfold addToCart at h
    rw [findById_toHexString, hprod] at h
    simp at h
  | some product =>
    have hid : product._id = x := by
      unfold Item.byId at hprod
      simpa using List.find?_some hprod
    have hp : Item.findById s (some x.toHexString) = .ok (some product) := by
      rw [findById_toHexString, hprod]
    obtain ⟨c1, hc1user, -, ⟨l, hl, hlx⟩, hrun⟩ := addToCart_of_product s u _ product hp
    have hlx2 : l.product.toHexString = x.toHexString := by
      rcases hlx with hlx | hlx
      · simpa using hlx
      · rw [hlx, hid]
    cases hsave : Cart.save s c1 with
    | error e =>
      exfalso
      rw [hrun, hsave] at h
      simp at h
    | ok s1 =>
      rw [hsave] at hrun
      simp only [] at hrun
      rw [hrun]
      show addToCart s1 u (some x.toHexString) = _
      have hcarts := carts_save hsave
      have hitems := items_save hsave
      have hvalid := valid_of_save hsave
      have hfind1 : Cart.findOne s1 u = some c1 := by
        unfold Cart.findOne
        rw [hcarts, ← hc1user]
        exact find_putCart_self s.carts c1
      have hp1 : Item.findById s1 (some x.toHexString) = .ok (some product) := by
        rw [findById_of_items s s1 _ hitems]; exact hp
      obtain ⟨c2, -, hc2, -, hrun2⟩ := addToCart_of_product s1 u _ product hp1
      rw [hfind1, Option.getD_some] at hc2
      have hput : putCart s1.carts c1 = s1.carts :=
        putCart_of_find s1.carts c1 (by rw [hc1user]; exact hfind1)
      have hsame : addToCart s1 u (some x.toHexString) = (⟨201, .cart c1⟩, s1) := by
        unfold addToCart
        rw [hp1]
        have hfound1 : List.find? (fun item => decide (some item.product.toHexString =
            some x.toHexString)) c1.items ≠ none := by
          intro hq
          rw [List.find?_eq_none] at hq
          exact hq l hl (by simpa using hlx2)
        simp only [hfind1, Option.getD_some]
        cases hq : List.find? (fun item => decide (some item.product.toHexString =
            some x.toHexString)) c1.items with
        | none => exact absurd hq hfound1
        | some l1 =>
          simp only [Option.isNone_some]
          rw [show (if false = true then
              ({ c1 with items := c1.items ++
                [⟨product._id, product.title, product.image, product.price⟩] } : Cart)
              else c1) = c1 from rfl]
          rw [save_ok s1 c1 hvalid, hput]
      exact hsame

end Ecom
